import Mathlib

/-!
Verification of the GERAR_POLIGONO KML-processing pipeline
(src/GERAR_POLIGONO.py) against its natural-language specification.

The development shallowly embeds the four core functions of the source:
`create_square_polygon` (lines 161-178), `parse_kml` (lines 117-159),
`merge_intersecting_polygons` (lines 180-201) and `create_output_kml`
(lines 203-239).  Python floats are embedded as exact reals (for the
trigonometric buffer) and exact rationals (for parsing and output).
-/

namespace GerarPoligono

/-! ## MetricBuffer: `create_square_polygon` (src lines 161-178) -/

/-- Embeds Python `math.radians(deg)`: degrees to radians. -/
noncomputable def radians (deg : ℝ) : ℝ := deg * Real.pi / 180

/-- Embeds line 164: `lat_offset = radius_meters / 111000`. -/
noncomputable def lat_offset (radius_meters : ℝ) : ℝ := radius_meters / 111000

/-- Embeds line 167:
`lon_offset = radius_meters / (111000 * math.cos(math.radians(lat)))`. -/
noncomputable def lon_offset (lat radius_meters : ℝ) : ℝ :=
  radius_meters / (111000 * Real.cos (radians lat))

/-- Embeds `create_square_polygon(lat, lon, radius_meters)` (lines 161-178).
The shapely `Polygon` is represented by its explicitly closed exterior
vertex list of `(latitude, longitude)` pairs, exactly the list built at
lines 170-176.  The source performs no validation of the radius or the
latitude: the function is total. -/
noncomputable def create_square_polygon (lat lon radius_meters : ℝ) :
    List (ℝ × ℝ) :=
  [(lat - lat_offset radius_meters, lon - lon_offset lat radius_meters),
   (lat - lat_offset radius_meters, lon + lon_offset lat radius_meters),
   (lat + lat_offset radius_meters, lon + lon_offset lat radius_meters),
   (lat + lat_offset radius_meters, lon - lon_offset lat radius_meters),
   (lat - lat_offset radius_meters, lon - lon_offset lat radius_meters)]

/-- C1: for latitude strictly between -90 and 90 and any radius,
`create_square_polygon` returns a closed ring of exactly 5 coordinate
pairs whose first vertex equals its last, with the vertices
(lat-latOffset, lon-lonOffset), (lat-latOffset, lon+lonOffset),
(lat+latOffset, lon+lonOffset), (lat+latOffset, lon-lonOffset), closing
back to the first, where latOffset = r/111000 and
lonOffset = r/(111000*cos(radians(lat))). -/
theorem buffer_square_ring (lat lon r : ℝ)
    (_h : -90 < lat ∧ lat < 90) :
    (create_square_polygon lat lon r).length = 5 ∧
    (create_square_polygon lat lon r).head? =
      (create_square_polygon lat lon r).getLast? ∧
    create_square_polygon lat lon r =
      [(lat - r / 111000, lon - r / (111000 * Real.cos (radians lat))),
       (lat - r / 111000, lon + r / (111000 * Real.cos (radians lat))),
       (lat + r / 111000, lon + r / (111000 * Real.cos (radians lat))),
       (lat + r / 111000, lon - r / (111000 * Real.cos (radians lat))),
       (lat - r / 111000, lon - r / (111000 * Real.cos (radians lat)))] := by
  refine ⟨rfl, rfl, ?_⟩
  simp [create_square_polygon, lat_offset, lon_offset]

/-- Witness for C1 at latitude 0, longitude 0, radius 40. -/
theorem buffer_square_ring_witness :
    (create_square_polygon 0 0 40).length = 5 ∧
    (create_square_polygon 0 0 40).head? =
      (create_square_polygon 0 0 40).getLast? :=
  ⟨(buffer_square_ring 0 0 40 ⟨by norm_num, by norm_num⟩).1,
   (buffer_square_ring 0 0 40 ⟨by norm_num, by norm_num⟩).2.1⟩

/-- C5 counterexample: at radius -5 (non-positive) the code does not fail
with InvalidRadius; `create_square_polygon` returns a normal closed
5-vertex ring.  No radius validation exists anywhere in the source. -/
theorem buffer_negative_radius_counterexample :
    (create_square_polygon 0 0 (-5)).length = 5 ∧
    (create_square_polygon 0 0 (-5)).head? =
      (create_square_polygon 0 0 (-5)).getLast? :=
  ⟨rfl, rfl⟩

/-- C5 amended: `create_square_polygon` performs no radius validation:
for every radius, including non-positive ones, it returns the closed
5-vertex square ring; no InvalidRadius failure exists in the code (the
UI slider restricts the radius to [10, 150], so non-positive radii never
reach the function in the application). -/
theorem buffer_no_radius_validation (lat lon r : ℝ) :
    (create_square_polygon lat lon r).length = 5 ∧
    (create_square_polygon lat lon r).head? =
      (create_square_polygon lat lon r).getLast? :=
  ⟨rfl, rfl⟩

/-- C9 counterexample: at latitude 90 the code does not fail with
InvalidLatitude; `create_square_polygon` returns a normal 5-vertex ring
even though the longitude-offset denominator 111000*cos(radians(90)) is
exactly 0 (the division is unguarded). -/
theorem buffer_pole_counterexample :
    (create_square_polygon 90 0 40).length = 5 ∧
    111000 * Real.cos (radians 90) = 0 := by
  refine ⟨rfl, ?_⟩
  have h : radians 90 = Real.pi / 2 := by
    unfold radians; ring
  rw [h, Real.cos_pi_div_two, mul_zero]

/-- C9 amended: the code has no latitude guard: for every radius r > 0,
buffering a point at latitude +90 or -90 succeeds and returns the closed
5-vertex ring, with the longitude offset computed as the unguarded
quotient r/(111000*cos(radians(lat))) whose exact denominator at the
poles is 0 (Python's floating-point cos gives a tiny nonzero value
there, so the code silently produces a huge finite longitude offset
rather than any error). -/
theorem buffer_pole_no_guard (lon r : ℝ) (_h : 0 < r) :
    (create_square_polygon 90 lon r).length = 5 ∧
    (create_square_polygon (-90) lon r).length = 5 ∧
    111000 * Real.cos (radians 90) = 0 ∧
    111000 * Real.cos (radians (-90)) = 0 := by
  refine ⟨rfl, rfl, ?_, ?_⟩
  · have h90 : radians 90 = Real.pi / 2 := by unfold radians; ring
    rw [h90, Real.cos_pi_div_two, mul_zero]
  · have hm90 : radians (-90) = -(Real.pi / 2) := by unfold radians; ring
    rw [hm90, Real.cos_neg, Real.cos_pi_div_two, mul_zero]

/-- Witness for C9 amended, at longitude 0 and radius 40. -/
theorem buffer_pole_no_guard_witness :
    (create_square_polygon 90 0 40).length = 5 ∧
    (create_square_polygon (-90) 0 40).length = 5 :=
  ⟨(buffer_pole_no_guard 0 40 (by norm_num)).1,
   (buffer_pole_no_guard 0 40 (by norm_num)).2.1⟩

/-! ## PointExtractor: `parse_kml` (src lines 117-159)

The source parses the uploaded file with `xml.etree.ElementTree` and
walks the element tree.  The tree is embedded as `XmlNode`; the
`kml:`-namespaced tags of the source are carried as plain tag strings.
Python string/number primitives used by the loop (`str.strip`,
`str.split(',')`, `float`) are modelled explicitly below.  Any exception
raised inside the `try` block (lines 119-156) is caught at line 157 and
turns the whole result into `(None, None)`; this is embedded as the
extractor returning `none`. -/

/-- An element of the parsed markup tree: tag, optional text content,
child elements.  Mirrors the `xml.etree.ElementTree.Element` values that
`parse_kml` traverses. -/
inductive XmlNode : Type where
  | node : String → Option String → List XmlNode → XmlNode
deriving Repr

/-- The tag of an element. -/
def tagOf : XmlNode → String
  | XmlNode.node t _ _ => t

/-- The `.text` attribute of an element (Python `None` ↦ `none`). -/
def textOf : XmlNode → Option String
  | XmlNode.node _ x _ => x

/-- The child elements of an element. -/
def childrenOf : XmlNode → List XmlNode
  | XmlNode.node _ _ cs => cs

mutual

/-- An element followed by all of its descendants, in document order. -/
def allNodes : XmlNode → List XmlNode
  | XmlNode.node t x cs => XmlNode.node t x cs :: allNodesList cs

/-- All elements of a forest together with their descendants, in
document order. -/
def allNodesList : List XmlNode → List XmlNode
  | [] => []
  | c :: cs => allNodes c ++ allNodesList cs

end

/-- All proper descendants of an element, in document order: the
ElementTree `'.//'` axis. -/
def descendantsOf (n : XmlNode) : List XmlNode :=
  allNodesList (childrenOf n)

/-- Embeds `root.findall('.//kml:Placemark', namespace)` (line 129). -/
def findallPlacemarks (root : XmlNode) : List XmlNode :=
  (descendantsOf root).filter (fun n => tagOf n == "Placemark")

/-- Embeds `placemark.find('kml:tag', namespace)` for a direct child
(lines 133 and 137): first direct child with the given tag. -/
def findChild (pm : XmlNode) (tag : String) : Option XmlNode :=
  (childrenOf pm).find? (fun c => tagOf c == tag)

/-- Embeds `placemark.find('.//kml:Point/kml:coordinates', namespace)`
(line 130): the first `coordinates` child of a descendant `Point`
element, in document order. -/
def findPointCoordinates (pm : XmlNode) : Option XmlNode :=
  (((descendantsOf pm).filter (fun n => tagOf n == "Point")).flatMap
      (fun p => (childrenOf p).filter (fun c => tagOf c == "coordinates"))).head?

/-- Models Python `str.strip()` (line 141): remove leading and trailing
whitespace. -/
def pyStrip (s : String) : String :=
  String.mk (((s.toList.dropWhile Char.isWhitespace).reverse.dropWhile
      Char.isWhitespace).reverse)

/-- Accumulator-based splitter over the character list, used to model
Python `str.split(',')`. -/
def splitCommaAux : List Char → List Char → List String
  | acc, [] => [String.mk acc.reverse]
  | acc, ',' :: rest => String.mk acc.reverse :: splitCommaAux [] rest
  | acc, c :: rest => splitCommaAux (c :: acc) rest

/-- Models Python `str.split(',')` (line 142): split on every comma;
the empty string splits to `[""]`. -/
def pySplitComma (s : String) : List String :=
  splitCommaAux [] s.toList

/-- `true` when every character of the list is a decimal digit. -/
def allDigits (cs : List Char) : Bool :=
  cs.all Char.isDigit

/-- The natural number denoted by a list of decimal digits. -/
def natOfDigits (cs : List Char) : ℕ :=
  cs.foldl (fun a c => 10 * a + (c.toNat - 48)) 0

/-- Consume an optional leading sign; `true` means negative. -/
def parseSign : List Char → Bool × List Char
  | '-' :: cs => (true, cs)
  | '+' :: cs => (false, cs)
  | cs => (false, cs)

/-- Parse the mantissa of a Python float literal: digits with an
optional decimal point, at least one digit overall. -/
def parseMantissa (cs : List Char) : Option ℚ :=
  let ip := cs.takeWhile (fun c => c != '.')
  let rest := cs.dropWhile (fun c => c != '.')
  match rest with
  | [] =>
      if ip ≠ [] ∧ allDigits ip = true then some ((natOfDigits ip : ℚ))
      else none
  | _ :: fp =>
      if (ip ≠ [] ∨ fp ≠ []) ∧ allDigits ip = true ∧ allDigits fp = true then
        some ((natOfDigits ip : ℚ) + (natOfDigits fp : ℚ) / (10 : ℚ) ^ fp.length)
      else none

/-- Split a character list at the first `e`/`E`, if any. -/
def splitOnExp (cs : List Char) : List Char × Option (List Char) :=
  let m := cs.takeWhile (fun c => c != 'e' && c != 'E')
  match cs.dropWhile (fun c => c != 'e' && c != 'E') with
  | [] => (m, none)
  | _ :: e => (m, some e)

/-- Models Python `float(s)` (lines 145-146) on plain decimal numerals:
optional surrounding whitespace, optional sign, digits with optional
fractional part, optional decimal exponent.  The special forms `inf`,
`nan` and digit-group underscores accepted by Python do not occur in
coordinate data and are not modelled.  Returns `none` exactly when
Python raises `ValueError`. -/
def pyFloat (s : String) : Option ℚ :=
  let cs0 := (pyStrip s).toList
  let sgn := parseSign cs0
  let parts := splitOnExp sgn.2
  match parseMantissa parts.1 with
  | none => none
  | some m =>
      let signed : ℚ := if sgn.1 then -m else m
      match parts.2 with
      | none => some signed
      | some ecs =>
          let esgn := parseSign ecs
          if esgn.2 ≠ [] ∧ allDigits esgn.2 = true then
            let e := natOfDigits esgn.2
            some (if esgn.1 then signed / 10 ^ e else signed * 10 ^ e)
          else none

/-- One extracted placemark: the dict appended at lines 148-154
(`name`, `description`, `lat`, `lon`, `coords`).  `name` and
`description` are `Option String` because Python stores `None` when the
element exists but has no text. -/
structure Placemark where
  name : Option String
  description : Option String
  lat : ℚ
  lon : ℚ
  coords : String
deriving DecidableEq, Repr

/-- Embeds lines 133-134: the display name, defaulting to `"Sem nome"`
when no `name` child exists (when the child exists but has no text,
Python stores `None`). -/
def extractedName (pm : XmlNode) : Option String :=
  match findChild pm "name" with
  | some e => textOf e
  | none => some "Sem nome"

/-- Embeds lines 137-138: the description, defaulting to `""` when no
`description` child exists. -/
def extractedDescription (pm : XmlNode) : Option String :=
  match findChild pm "description" with
  | some e => textOf e
  | none => some ""

/-- Embeds lines 141-146 for one `coordinates` element: strip the text,
split on commas, and when there are at least two fields convert the
first two with `float`.  `Except.error` is a raised Python exception
(`AttributeError` when the element has no text, because the source calls
`point.text.strip()` unconditionally; `ValueError` when `float` fails);
`Except.ok none` is the silent skip of the `len(coords) >= 2` guard. -/
def extractPoint (point : XmlNode) : Except String (Option (ℚ × ℚ × String)) :=
  match textOf point with
  | none => Except.error "AttributeError: NoneType object has no attribute strip"
  | some t =>
      match pySplitComma (pyStrip t) with
      | c0 :: c1 :: _ =>
          match pyFloat c0, pyFloat c1 with
          | some lon, some lat => Except.ok (some (lon, lat, pyStrip t))
          | _, _ => Except.error "ValueError: could not convert string to float"
      | _ => Except.ok none

/-- Embeds one iteration of the loop at lines 129-154: a placemark with
no `Point/coordinates` descendant is skipped (`ok none`, line 131);
otherwise the coordinate element is processed by `extractPoint` and a
`Placemark` is built on success. -/
def processPlacemark (pm : XmlNode) : Except String (Option Placemark) :=
  match findPointCoordinates pm with
  | none => Except.ok none
  | some point =>
      match extractPoint point with
      | Except.error e => Except.error e
      | Except.ok none => Except.ok none
      | Except.ok (some (lon, lat, coords_text)) =>
          Except.ok (some ⟨extractedName pm, extractedDescription pm,
            lat, lon, coords_text⟩)

/-- The loop of lines 127-154 over all placemarks: results are appended
in document order; the first raised exception aborts the loop (and is
caught by the handler at line 157). -/
def collectPlacemarks : List XmlNode → Except String (List Placemark)
  | [] => Except.ok []
  | pm :: rest =>
      match processPlacemark pm with
      | Except.error e => Except.error e
      | Except.ok o =>
          match collectPlacemarks rest with
          | Except.error e => Except.error e
          | Except.ok l =>
              Except.ok (match o with
                | some p => p :: l
                | none => l)

/-- Embeds `parse_kml` (lines 117-159) on an already well-formed
document tree: traverse all placemarks; any exception raised inside the
`try` block is caught at line 157 and the function returns
`(None, None)`, embedded as `none`.  (The source also returns the root
element on success; only the placemark list is claim-relevant.) -/
def parse_kml (root : XmlNode) : Option (List Placemark) :=
  match collectPlacemarks (findallPlacemarks root) with
  | Except.ok l => some l
  | Except.error _ => none

/-- A placemark lacking a `Point` geometry child (only a `name`). -/
def pmNoPoint : XmlNode :=
  XmlNode.node "Placemark" none [XmlNode.node "name" (some "P0") []]

/-- A well-formed placemark with numeric coordinates `"3,4"`. -/
def pmGood : XmlNode :=
  XmlNode.node "Placemark" none
    [XmlNode.node "name" (some "P1") [],
     XmlNode.node "Point" none [XmlNode.node "coordinates" (some "3,4") []]]

/-- A well-formed placemark whose coordinate text `"x,y"` has two comma
fields that are not numeric. -/
def pmBadFloat : XmlNode :=
  XmlNode.node "Placemark" none
    [XmlNode.node "Point" none [XmlNode.node "coordinates" (some "x,y") []]]

/-- A well-formed document holding a point-less placemark and a good
placemark. -/
def docSkipGood : XmlNode :=
  XmlNode.node "kml" none [XmlNode.node "Document" none [pmNoPoint, pmGood]]

/-- A well-formed document holding a defective (non-numeric coordinate)
placemark followed by a good placemark. -/
def docBadGood : XmlNode :=
  XmlNode.node "kml" none [XmlNode.node "Document" none [pmBadFloat, pmGood]]

/-- A placemark with no `Point/coordinates` descendant is skipped:
the loop body (line 131) only processes placemarks whose `find` call
succeeds. -/
theorem processPlacemark_no_point (pm : XmlNode)
    (h : findPointCoordinates pm = none) :
    processPlacemark pm = Except.ok none := by
  simp [processPlacemark, h]

/-- Every successfully extracted placemark carries the extracted name
and description of its node. -/
theorem processPlacemark_ok_some (pm : XmlNode) (p : Placemark)
    (h : processPlacemark pm = Except.ok (some p)) :
    p.name = extractedName pm ∧ p.description = extractedDescription pm := by
  unfold processPlacemark at h
  cases hpc : findPointCoordinates pm with
  | none => rw [hpc] at h; simp at h
  | some point =>
    rw [hpc] at h
    simp only [] at h
    cases hep : extractPoint point with
    | error e => rw [hep] at h; simp at h
    | ok o =>
      rw [hep] at h
      cases o with
      | none => simp at h
      | some triple =>
        obtain ⟨lon, lat, ct⟩ := triple
        simp at h
        subst h
        exact ⟨rfl, rfl⟩

/-- A raised exception at any placemark aborts the whole collection
loop. -/
theorem collectPlacemarks_error (pms : List XmlNode) :
    ∀ pm e, pm ∈ pms → processPlacemark pm = Except.error e →
      ∃ e2, collectPlacemarks pms = Except.error e2 := by
  induction pms with
  | nil => intro pm e h; simp at h
  | cons q rest ih =>
    intro pm e hmem herr
    rcases List.mem_cons.mp hmem with rfl | hmem2
    · exact ⟨e, by simp [collectPlacemarks, herr]⟩
    · cases hq : processPlacemark q with
      | error e3 => exact ⟨e3, by simp [collectPlacemarks, hq]⟩
      | ok o =>
        obtain ⟨e2, he2⟩ := ih pm e hmem2 herr
        exact ⟨e2, by simp [collectPlacemarks, hq, he2]⟩

/-- C6 counterexample: the claim fails on the code.  The well-formed
document `docBadGood` contains one placemark whose coordinate text
`"x,y"` is present but not numeric, next to a perfectly good placemark;
`parse_kml` returns `none` (the source catches the `ValueError` raised
by `float('x')` at line 157 and returns `(None, None)`), so the defect
in one placemark makes the whole extraction fail and the good placemark
is not returned — even though the same good placemark alone parses
fine. -/
theorem parse_kml_bad_coordinate_fails_counterexample :
    parse_kml docBadGood = none ∧
    parse_kml (XmlNode.node "kml" none
        [XmlNode.node "Document" none [pmGood]]) =
      some [⟨some "P1", some "", 4, 3, "3,4"⟩] := by
  constructor
  · decide
  · decide

/-- C6 amended: placemarks lacking a `Point/coordinates` child are
silently skipped (no exception), but a placemark whose coordinate data
is present and malformed (non-numeric fields, or a text-less
`coordinates` element) raises inside the loop, the exception aborts the
whole loop, and `parse_kml` catches it and returns no placemarks at all
(`None`), dropping every other placemark of the document. -/
theorem parse_kml_defect_handling :
    (∀ pm, findPointCoordinates pm = none →
       processPlacemark pm = Except.ok none) ∧
    (∀ pms pm e, pm ∈ pms → processPlacemark pm = Except.error e →
       ∃ e2, collectPlacemarks pms = Except.error e2) ∧
    (∀ root e2, collectPlacemarks (findallPlacemarks root) = Except.error e2 →
       parse_kml root = none) := by
  refine ⟨processPlacemark_no_point, collectPlacemarks_error, ?_⟩
  intro root e2 h
  simp [parse_kml, h]

/-- Witness for C6 amended on concrete documents. -/
theorem parse_kml_defect_handling_witness :
    processPlacemark pmNoPoint = Except.ok none ∧
    (∃ e2, collectPlacemarks [pmBadFloat] = Except.error e2) ∧
    parse_kml docBadGood = none := by
  refine ⟨parse_kml_defect_handling.1 pmNoPoint rfl,
    parse_kml_defect_handling.2.1 [pmBadFloat] pmBadFloat
      "ValueError: could not convert string to float"
      (List.mem_singleton.mpr rfl) rfl, ?_⟩
  have h := parse_kml_defect_handling.2.2 docBadGood
    "ValueError: could not convert string to float"
  exact h rfl

/-- A well-formed placemark with coordinates `"1,2"` and no `name` and
no `description` child. -/
def pmNoName : XmlNode :=
  XmlNode.node "Placemark" none
    [XmlNode.node "Point" none [XmlNode.node "coordinates" (some "1,2") []]]

/-- A well-formed document holding only `pmNoName`. -/
def docNoName : XmlNode :=
  XmlNode.node "kml" none [XmlNode.node "Document" none [pmNoName]]

/-- C7 counterexample: the claim fails on the code.  For a placemark
with no `name` child the extractor defaults the display name to the
Portuguese string `"Sem nome"` (line 134), not to `"Unnamed"` as the
claim states.  (The description does default to `""`.) -/
theorem parse_kml_default_name_counterexample :
    parse_kml docNoName = some [⟨some "Sem nome", some "", 2, 1, "1,2"⟩] ∧
    (some "Sem nome" : Option String) ≠ some "Unnamed" := by
  constructor
  · decide
  · decide

/-- C7 amended: for every well-formed document the extractor skips
placemark nodes lacking a point-geometry child without raising, and for
each extracted placemark it defaults a missing display name to the
string `"Sem nome"` (not `"Unnamed"`) and a missing description to the
empty string `""`. -/
theorem parse_kml_skip_and_defaults (pm : XmlNode) :
    (findPointCoordinates pm = none → processPlacemark pm = Except.ok none) ∧
    (findChild pm "name" = none → extractedName pm = some "Sem nome") ∧
    (findChild pm "description" = none →
       extractedDescription pm = some "") ∧
    ∀ p : Placemark, processPlacemark pm = Except.ok (some p) →
      p.name = extractedName pm ∧ p.description = extractedDescription pm := by
  refine ⟨processPlacemark_no_point pm, ?_, ?_, processPlacemark_ok_some pm⟩
  · intro h; simp [extractedName, h]
  · intro h; simp [extractedDescription, h]

/-- Witness for C7 amended on concrete placemarks. -/
theorem parse_kml_skip_and_defaults_witness :
    processPlacemark pmNoPoint = Except.ok none ∧
    extractedName pmNoName = some "Sem nome" ∧
    extractedDescription pmNoName = some "" ∧
    ((⟨some "Sem nome", some "", 2, 1, "1,2"⟩ : Placemark).name =
        extractedName pmNoName ∧
     (⟨some "Sem nome", some "", 2, 1, "1,2"⟩ : Placemark).description =
        extractedDescription pmNoName) := by
  refine ⟨(parse_kml_skip_and_defaults pmNoPoint).1 rfl,
    (parse_kml_skip_and_defaults pmNoName).2.1 rfl,
    (parse_kml_skip_and_defaults pmNoName).2.2.1 rfl,
    (parse_kml_skip_and_defaults pmNoName).2.2.2 _ ?_⟩
  rfl

/-- A placemark whose coordinate text `"7"` has a single comma field. -/
def pmOneField : XmlNode :=
  XmlNode.node "Placemark" none
    [XmlNode.node "Point" none [XmlNode.node "coordinates" (some "7") []]]

/-- A placemark whose coordinate text `"1,2,50"` has three comma fields
(the third, the altitude, is to be discarded). -/
def pmThreeFields : XmlNode :=
  XmlNode.node "Placemark" none
    [XmlNode.node "Point" none
      [XmlNode.node "coordinates" (some "1,2,50") []]]

/-- C10: a placemark whose point-geometry coordinate text splits on
commas into fewer than two fields is silently omitted (no error, no
entry, by the `len(coords) >= 2` guard at line 144), while a placemark
with two or more fields whose first two fields are numeric contributes
exactly one point taking the first field as longitude and the second as
latitude (lines 145-146); any further fields are ignored. -/
theorem coordinate_field_handling (pm point : XmlNode) (t : String)
    (hpc : findPointCoordinates pm = some point)
    (ht : textOf point = some t) :
    ((pySplitComma (pyStrip t)).length < 2 →
       processPlacemark pm = Except.ok none) ∧
    ∀ c0 c1 rest x y, pySplitComma (pyStrip t) = c0 :: c1 :: rest →
      pyFloat c0 = some x → pyFloat c1 = some y →
      processPlacemark pm = Except.ok (some ⟨extractedName pm,
        extractedDescription pm, y, x, pyStrip t⟩) := by
  constructor
  · intro hlen
    have hep : extractPoint point = Except.ok none := by
      unfold extractPoint
      rw [ht]
      simp only []
      rcases hs : pySplitComma (pyStrip t) with _ | ⟨c0, cs⟩
      · rfl
      · rcases cs with _ | ⟨c1, rest⟩
        · rfl
        · rw [hs] at hlen; simp at hlen; omega
    simp [processPlacemark, hpc, hep]
  · intro c0 c1 rest x y hs h0 h1
    have hep : extractPoint point = Except.ok (some (x, y, pyStrip t)) := by
      unfold extractPoint
      rw [ht]
      simp only []
      rw [hs]
      simp only []
      rw [h0, h1]
    simp [processPlacemark, hpc, hep]

/-- Witness for C10 on concrete placemarks: a one-field coordinate text
is skipped, a three-field text contributes lon 1, lat 2 and drops the
altitude 50. -/
theorem coordinate_field_handling_witness :
    processPlacemark pmOneField = Except.ok none ∧
    processPlacemark pmThreeFields =
      Except.ok (some ⟨extractedName pmThreeFields,
        extractedDescription pmThreeFields, 2, 1, pyStrip "1,2,50"⟩) := by
  constructor
  · exact (coordinate_field_handling pmOneField
      (XmlNode.node "coordinates" (some "7") []) "7" rfl rfl).1 (by decide)
  · exact (coordinate_field_handling pmThreeFields
      (XmlNode.node "coordinates" (some "1,2,50") []) "1,2,50" rfl rfl).2
      "1" "2" ["50"] 1 2 (by decide) (by decide) (by decide)

/-! ## PolygonMerger: `merge_intersecting_polygons` (src lines 180-201)

The source delegates the union itself to `shapely.ops.unary_union`,
which is library code outside this repository.  Its semantics are
modelled from the spec: the union of a set of polygons decomposes into
one simple polygon per connected component of the pairwise-intersection
graph (spec section 4.3: two input polygons belong to the same output
component iff their interiors or boundaries intersect, directly or
transitively).  The polygons the pipeline feeds to the union are the
axis-aligned squares produced by `create_square_polygon`, so a polygon
is modelled as a finite set of axis-aligned boxes (a buffered square is
a single box; a merged region is the set of squares it fused), and two
such regions intersect exactly when some box of one meets some box of
the other. -/

/-- An axis-aligned box in (latitude, longitude) space: the footprint of
one buffered square. -/
structure Box where
  latMin : ℚ
  latMax : ℚ
  lonMin : ℚ
  lonMax : ℚ
deriving DecidableEq, Repr

/-- A polygon, as fed to and produced by the union step: the boxes whose
point-set union it covers.  A buffered square is a singleton list. -/
abbrev Region : Type := List Box

/-- Modelled from the spec: two closed axis-aligned boxes intersect
(share a boundary or interior point) iff their coordinate intervals
overlap on both axes. -/
def boxesIntersect (a b : Box) : Bool :=
  decide (a.latMin ≤ b.latMax) && decide (b.latMin ≤ a.latMax) &&
    decide (a.lonMin ≤ b.lonMax) && decide (b.lonMin ≤ a.lonMax)

/-- Modelled from the spec: two regions (unions of boxes) intersect iff
some box of one intersects some box of the other. -/
def regionsIntersect (A B : Region) : Bool :=
  A.any (fun a => B.any (fun b => boxesIntersect a b))

/-- Modelled from the spec: `shapely.ops.unary_union`, step 1 — grow one
connected component.  Starting from a seed region, repeatedly absorb
every remaining region that intersects the component, until none does;
returns the fused component and the untouched remainder.  The fuel (at
least the length of `rest`) bounds the iteration. -/
def growComponent : ℕ → Region → List Region → Region × List Region
  | 0, seed, rest => (seed, rest)
  | fuel + 1, seed, rest =>
      if rest.filter (fun r => regionsIntersect seed r) = [] then
        (seed, rest)
      else
        growComponent fuel
          (seed ++ (rest.filter (fun r => regionsIntersect seed r)).flatten)
          (rest.filter (fun r => !regionsIntersect seed r))

/-- Modelled from the spec: `shapely.ops.unary_union`, step 2 — fuse the
whole input list into its connected components, in input order. -/
def mergeComponents : ℕ → List Region → List Region
  | 0, l => l
  | _ + 1, [] => []
  | fuel + 1, p :: rest =>
      (growComponent rest.length p rest).1 ::
        mergeComponents fuel (growComponent rest.length p rest).2

/-- Modelled from the spec: `shapely.ops.unary_union` on a list of
polygons — one output polygon per connected component of the
intersection graph (spec section 4.3).  The source's dispatch on the
result's `geom_type` (lines 193-198) is absorbed here: a single
component corresponds to the `'Polygon'` branch, several components to
the `'MultiPolygon'` branch; no other geometry type arises from a union
of polygons. -/
def unaryUnionRegions (l : List Region) : List Region :=
  mergeComponents l.length l

/-- The exception raised by the union step on degenerate input (caught
at lines 199-201). -/
structure GeometryError where
  message : String
deriving DecidableEq, Repr

/-- Embeds `merge_intersecting_polygons(polygons)` (lines 180-201),
parametrized by the external union step, which may raise: empty input
returns `[]` (lines 182-183); a single polygon is returned unchanged
with no union call (lines 185-186); otherwise the union is computed and
decomposed (lines 188-198), and if it raises, the `except` handler at
lines 199-201 returns the unmerged input list unchanged. -/
def merge_with
    (union : List Region → Except GeometryError (List Region))
    (polygons : List Region) : List Region :=
  if polygons = [] then []
  else if polygons.length = 1 then polygons
  else
    match union polygons with
    | Except.ok merged => merged
    | Except.error _ => polygons

/-- The spec-modelled union step never raises on box regions: it always
returns the connected components. -/
def unary_union_model (l : List Region) : Except GeometryError (List Region) :=
  Except.ok (unaryUnionRegions l)

/-- `merge_intersecting_polygons` with the spec-modelled union step. -/
def merge_intersecting_polygons (polygons : List Region) : List Region :=
  merge_with unary_union_model polygons

/-- Region intersection is false exactly when no pair of member boxes
intersects. -/
theorem regionsIntersect_eq_false_iff (A B : Region) :
    regionsIntersect A B = false ↔
      ∀ a ∈ A, ∀ b ∈ B, boxesIntersect a b = false := by
  constructor
  · intro h a ha b hb
    cases hab : boxesIntersect a b
    · rfl
    · exfalso
      have htrue : regionsIntersect A B = true := by
        simp only [regionsIntersect, List.any_eq_true]
        exact ⟨a, ha, b, hb, hab⟩
      rw [h] at htrue
      exact Bool.false_ne_true htrue
  · intro h
    cases hr : regionsIntersect A B
    · rfl
    · exfalso
      simp only [regionsIntersect, List.any_eq_true] at hr
      obtain ⟨a, ha, b, hb, hab⟩ := hr
      rw [h a ha b hb] at hab
      exact Bool.false_ne_true hab

/-- Removing the elements satisfying `p` strictly shrinks a list that
contains one. -/
theorem length_filter_not_lt {α : Type} (p : α → Bool) (l : List α) (x : α)
    (hx : x ∈ l) (hpx : p x = true) :
    (l.filter (fun a => !p a)).length < l.length := by
  induction l with
  | nil => simp at hx
  | cons y ys ih =>
    rcases List.mem_cons.mp hx with rfl | hx2
    · have h1 := List.length_filter_le (fun a => !p a) ys
      simp [List.filter_cons, hpx]
      omega
    · cases hpy : p y
      · have h1 := ih hx2
        simp [List.filter_cons, hpy]
        omega
      · have h1 := ih hx2
        simp [List.filter_cons, hpy]
        omega

/-- The remainder after growing a component never gets longer. -/
theorem growComponent_rest_length (fuel : ℕ) :
    ∀ seed rest, ((growComponent fuel seed rest).2).length ≤ rest.length := by
  induction fuel with
  | zero => intro seed rest; simp [growComponent]
  | succ n ih =>
    intro seed rest
    by_cases hrel : rest.filter (fun r => regionsIntersect seed r) = []
    · simp [growComponent, hrel]
    · simp only [growComponent, if_neg hrel]
      exact le_trans (ih _ _) (List.length_filter_le _ _)

/-- Every region left over by `growComponent` was already in the
input remainder. -/
theorem growComponent_rest_subset (fuel : ℕ) :
    ∀ seed rest r, r ∈ (growComponent fuel seed rest).2 → r ∈ rest := by
  induction fuel with
  | zero => intro seed rest r h; simpa [growComponent] using h
  | succ n ih =>
    intro seed rest r h
    by_cases hrel : rest.filter (fun r => regionsIntersect seed r) = []
    · simpa [growComponent, hrel] using h
    · simp only [growComponent, if_neg hrel] at h
      exact List.mem_of_mem_filter (ih _ _ r h)

/-- Every box of a grown component comes from the seed or from one of
the regions of the input remainder. -/
theorem growComponent_boxes (fuel : ℕ) :
    ∀ seed rest b, b ∈ (growComponent fuel seed rest).1 →
      b ∈ seed ∨ ∃ r, r ∈ rest ∧ b ∈ r := by
  induction fuel with
  | zero => intro seed rest b h; left; simpa [growComponent] using h
  | succ n ih =>
    intro seed rest b h
    by_cases hrel : rest.filter (fun r => regionsIntersect seed r) = []
    · left; simpa [growComponent, hrel] using h
    · simp only [growComponent, if_neg hrel] at h
      rcases ih _ _ b h with hseed | ⟨r, hr, hbr⟩
      · rcases List.mem_append.mp hseed with h1 | h2
        · left; exact h1
        · right
          obtain ⟨r, hr, hbr⟩ := List.mem_flatten.mp h2
          exact ⟨r, List.mem_of_mem_filter hr, hbr⟩
      · right; exact ⟨r, List.mem_of_mem_filter hr, hbr⟩

/-- With enough fuel, a grown component intersects none of the regions
it leaves behind. -/
theorem growComponent_sep (fuel : ℕ) :
    ∀ seed rest, rest.length ≤ fuel →
      ∀ r ∈ (growComponent fuel seed rest).2,
        regionsIntersect (growComponent fuel seed rest).1 r = false := by
  induction fuel with
  | zero =>
    intro seed rest hlen r hr
    have hnil : rest = [] := List.eq_nil_of_length_eq_zero (Nat.le_zero.mp hlen)
    subst hnil
    simp [growComponent] at hr
  | succ n ih =>
    intro seed rest hlen r hr
    by_cases hrel : rest.filter (fun r => regionsIntersect seed r) = []
    · simp only [growComponent, if_pos hrel] at hr ⊢
      cases hcase : regionsIntersect seed r
      · rfl
      · exfalso
        have hmem : r ∈ rest.filter (fun r => regionsIntersect seed r) :=
          List.mem_filter.mpr ⟨hr, hcase⟩
        rw [hrel] at hmem
        simp at hmem
    · obtain ⟨x, hxmem⟩ := List.exists_mem_of_ne_nil _ hrel
      obtain ⟨hxr, hxi⟩ := List.mem_filter.mp hxmem
      have hlt : (rest.filter (fun r => !regionsIntersect seed r)).length <
          rest.length :=
        length_filter_not_lt _ rest x hxr hxi
      have hlen2 : (rest.filter (fun r => !regionsIntersect seed r)).length ≤ n := by
        omega
      simp only [growComponent, if_neg hrel] at hr ⊢
      exact ih _ _ hlen2 r hr

/-- A region that does not intersect any member of a pool does not
intersect anything assembled from the pool's boxes. -/
theorem regionsIntersect_false_of (A B : Region) (l : List Region)
    (hsep : ∀ r ∈ l, regionsIntersect A r = false)
    (hb : ∀ b ∈ B, ∃ r ∈ l, b ∈ r) :
    regionsIntersect A B = false := by
  rw [regionsIntersect_eq_false_iff]
  intro a ha b hbB
  obtain ⟨r, hrl, hbr⟩ := hb b hbB
  exact (regionsIntersect_eq_false_iff A r).mp (hsep r hrl) a ha b hbr

/-- The union never returns more components than it was given
polygons. -/
theorem mergeComponents_length (fuel : ℕ) :
    ∀ l : List Region, (mergeComponents fuel l).length ≤ l.length := by
  induction fuel with
  | zero => intro l; simp [mergeComponents]
  | succ n ih =>
    intro l
    cases l with
    | nil => simp [mergeComponents]
    | cons p rest =>
      simp only [mergeComponents, List.length_cons]
      have h1 := ih (growComponent rest.length p rest).2
      have h2 := growComponent_rest_length rest.length p rest
      omega

/-- The union of a non-empty list has at least one component. -/
theorem mergeComponents_ne_nil (fuel : ℕ) (l : List Region) (h : l ≠ []) :
    mergeComponents (fuel + 1) l ≠ [] := by
  cases l with
  | nil => exact absurd rfl h
  | cons p rest => simp [mergeComponents]

/-- Every box of every output component comes from some input
region. -/
theorem mergeComponents_boxes (fuel : ℕ) :
    ∀ l C, C ∈ mergeComponents fuel l → ∀ b ∈ C, ∃ r ∈ l, b ∈ r := by
  induction fuel with
  | zero =>
    intro l C hC b hb
    exact ⟨C, by simpa [mergeComponents] using hC, hb⟩
  | succ n ih =>
    intro l C hC b hb
    cases l with
    | nil => simp [mergeComponents] at hC
    | cons p rest =>
      simp only [mergeComponents, List.mem_cons] at hC
      rcases hC with rfl | hC2
      · rcases growComponent_boxes rest.length p rest b hb with h1 | ⟨r, hr, hbr⟩
        · exact ⟨p, List.mem_cons_self _ _, h1⟩
        · exact ⟨r, List.mem_cons_of_mem _ hr, hbr⟩
      · obtain ⟨r, hr, hbr⟩ := ih _ C hC2 b hb
        exact ⟨r, List.mem_cons_of_mem _
          (growComponent_rest_subset rest.length p rest r hr), hbr⟩

/-- With enough fuel the output components are pairwise
non-intersecting: the union fully dissolves every chain of
intersections. -/
theorem mergeComponents_pairwise (fuel : ℕ) :
    ∀ l : List Region, l.length ≤ fuel →
      List.Pairwise (fun X Y => regionsIntersect X Y = false)
        (mergeComponents fuel l) := by
  induction fuel with
  | zero =>
    intro l hlen
    have hnil : l = [] := List.eq_nil_of_length_eq_zero (Nat.le_zero.mp hlen)
    subst hnil
    simp [mergeComponents]
  | succ n ih =>
    intro l hlen
    cases l with
    | nil => simp [mergeComponents]
    | cons p rest =>
      simp only [mergeComponents]
      refine List.Pairwise.cons ?_ ?_
      · intro Y hY
        exact regionsIntersect_false_of _ Y _
          (growComponent_sep rest.length p rest (le_refl _))
          (mergeComponents_boxes n _ Y hY)
      · apply ih
        have h1 := growComponent_rest_length rest.length p rest
        simp only [List.length_cons] at hlen
        omega

/-- Growing a component that intersects nothing changes nothing. -/
theorem growComponent_of_sep (fuel : ℕ) (seed : Region) (rest : List Region)
    (h : ∀ r ∈ rest, regionsIntersect seed r = false) :
    growComponent fuel seed rest = (seed, rest) := by
  cases fuel with
  | zero => rfl
  | succ n =>
    have hrel : rest.filter (fun r => regionsIntersect seed r) = [] := by
      rw [List.filter_eq_nil_iff]
      intro r hr
      rw [h r hr]
      simp
    simp [growComponent, hrel]

/-- The union fixes any pairwise non-intersecting list. -/
theorem mergeComponents_of_pairwise (fuel : ℕ) :
    ∀ l : List Region,
      List.Pairwise (fun X Y => regionsIntersect X Y = false) l →
      mergeComponents fuel l = l := by
  induction fuel with
  | zero => intro l _; rfl
  | succ n ih =>
    intro l hp
    cases l with
    | nil => rfl
    | cons p rest =>
      obtain ⟨hhead, htail⟩ := List.pairwise_cons.mp hp
      have hgrow := growComponent_of_sep rest.length p rest hhead
      simp only [mergeComponents, hgrow]
      rw [ih rest htail]

/-- C2: merge never increases the polygon count, and never returns zero
polygons for non-empty input. -/
theorem merge_count_bounds (P : List Region) :
    (merge_intersecting_polygons P).length ≤ P.length ∧
    (P ≠ [] → merge_intersecting_polygons P ≠ []) := by
  unfold merge_intersecting_polygons merge_with
  by_cases h0 : P = []
  · subst h0; simp
  · by_cases h1 : P.length = 1
    · simp [h0, h1]
    · simp only [h0, h1, if_false, unary_union_model]
      constructor
      · exact mergeComponents_length P.length P
      · intro _
        cases P with
        | nil => exact absurd rfl h0
        | cons p rest =>
          show unaryUnionRegions (p :: rest) ≠ []
          unfold unaryUnionRegions
          simp only [List.length_cons]
          exact mergeComponents_ne_nil rest.length (p :: rest) (by simp)

/-- Two disjoint unit boxes, used as concrete inputs. -/
def boxA : Box := ⟨0, 1, 0, 1⟩

/-- A second box, far away from `boxA`. -/
def boxB : Box := ⟨10, 11, 10, 11⟩

/-- Witness for C2 on a concrete two-polygon input. -/
theorem merge_count_bounds_witness :
    (merge_intersecting_polygons [[boxA], [boxB]]).length ≤ 2 ∧
    merge_intersecting_polygons [[boxA], [boxB]] ≠ [] :=
  ⟨(merge_count_bounds [[boxA], [boxB]]).1,
   (merge_count_bounds [[boxA], [boxB]]).2 (by decide)⟩

/-- C3: when the union step raises a `GeometryError`, merge returns the
unmerged input polygon list unchanged — the `except` handler at lines
199-201 turns the exception into the fallback value `polygons`, so the
error is handled as a value and never propagates out of the function. -/
theorem merge_geometry_error_fallback
    (union : List Region → Except GeometryError (List Region))
    (P : List Region) (e : GeometryError)
    (h : union P = Except.error e) :
    merge_with union P = P := by
  unfold merge_with
  by_cases h0 : P = []
  · subst h0; simp
  · by_cases h1 : P.length = 1
    · simp [h0, h1]
    · simp [h0, h1, h]

/-- A union step that always raises, as `unary_union` does on degenerate
input. -/
def failingUnion : List Region → Except GeometryError (List Region) :=
  fun _ => Except.error ⟨"TopologyException: side location conflict"⟩

/-- Witness for C3 on a concrete two-polygon input with a raising
union step. -/
theorem merge_geometry_error_fallback_witness :
    merge_with failingUnion [[boxA], [boxB]] = [[boxA], [boxB]] :=
  merge_geometry_error_fallback failingUnion [[boxA], [boxB]]
    ⟨"TopologyException: side location conflict"⟩ rfl

/-- C4: merge is idempotent — merging an already-merged result yields
the same list of polygons again (exact equality, hence in particular
the same set up to reordering). -/
theorem merge_idempotent (P : List Region) :
    merge_intersecting_polygons (merge_intersecting_polygons P) =
      merge_intersecting_polygons P := by
  by_cases h0 : P = []
  · subst h0; rfl
  · by_cases h1 : P.length = 1
    · have hM : merge_intersecting_polygons P = P := by
        unfold merge_intersecting_polygons merge_with
        simp [h0, h1]
      rw [hM]
      exact hM
    · have hM : merge_intersecting_polygons P = unaryUnionRegions P := by
        unfold merge_intersecting_polygons merge_with unary_union_model
        simp [h0, h1]
      have hpw : List.Pairwise (fun X Y => regionsIntersect X Y = false)
          (unaryUnionRegions P) :=
        mergeComponents_pairwise P.length P (le_refl _)
      rw [hM]
      by_cases hM0 : unaryUnionRegions P = []
      · rw [hM0]; rfl
      · by_cases hM1 : (unaryUnionRegions P).length = 1
        · unfold merge_intersecting_polygons merge_with
          simp [hM0, hM1]
        · unfold merge_intersecting_polygons merge_with unary_union_model
          simp only [hM0, hM1, if_false]
          exact mergeComponents_of_pairwise _ _ hpw

/-! ## DocumentWriter: `create_output_kml` (src lines 203-239)

The simplekml document is embedded as the lists of marker entities and
area entities the source creates; the merged polygons are given by their
exterior rings of internal `(latitude, longitude)` pairs, i.e. by
`list(poly.exterior.coords)` of line 217.  The style plumbing (hex color
conversion at lines 222-233, pure calls into the external simplekml
styling API) carries no claim-relevant content and is not modelled. -/

/-- Python `f"{x}"` on an optional string: `None` prints as "None". -/
def pyStr : Option String → String
  | some s => s
  | none => "None"

/-- A marker entity of the output document (lines 208-212). -/
structure KmlPoint where
  name : String
  coords : List (ℚ × ℚ)
deriving DecidableEq, Repr

/-- An area entity of the output document: its name (line 220) and its
outer boundary in external `(longitude, latitude)` axis order
(lines 236-237). -/
structure KmlPolygon where
  name : String
  outerboundaryis : List (ℚ × ℚ)
deriving DecidableEq, Repr

/-- The output document: marker entities plus area entities. -/
structure Kml where
  points : List KmlPoint
  polygons : List KmlPolygon
deriving DecidableEq, Repr

/-- The loop of lines 215-237 (`for i, poly in enumerate(polygons)`),
carrying the running `enumerate` index: each ring is emitted as the area
entity named `"Área {i+1}"` whose boundary swaps every internal
`(lat, lon)` pair into `(lon, lat)` (line 236). -/
def areaEntities : ℕ → List (List (ℚ × ℚ)) → List KmlPolygon
  | _, [] => []
  | i, coords :: rest =>
      ⟨"Área " ++ toString (i + 1),
        coords.map (fun c => (c.2, c.1))⟩ :: areaEntities (i + 1) rest

/-- Embeds `create_output_kml(polygons, placemarks, ...)`
(lines 203-239): one blue marker per original placemark named
`"Original: {name}"` with `(lon, lat)` coordinates (lines 208-212), then
one area entity per merged polygon. -/
def create_output_kml (polygons : List (List (ℚ × ℚ)))
    (placemarks : List Placemark) : Kml :=
  ⟨placemarks.map (fun pm =>
      ⟨"Original: " ++ pyStr pm.name, [(pm.lon, pm.lat)]⟩),
   areaEntities 0 polygons⟩

/-- Indexing into the emitted area entities: the i-th entity exists iff
the i-th input ring does, is named from the 1-based index, and carries
the axis-swapped ring. -/
theorem areaEntities_getElem? (rings : List (List (ℚ × ℚ))) :
    ∀ k i, (areaEntities k rings)[i]? =
      (rings[i]?).map (fun ring =>
        (⟨"Área " ++ toString (k + i + 1),
          ring.map (fun c => (c.2, c.1))⟩ : KmlPolygon)) := by
  induction rings with
  | nil => intro k i; simp [areaEntities]
  | cons ring rest ih =>
    intro k i
    cases i with
    | zero => simp [areaEntities]
    | succ j =>
      simp only [areaEntities, List.getElem?_cons_succ]
      rw [ih (k + 1) j]
      have harith : k + 1 + j + 1 = k + (j + 1) + 1 := by omega
      rw [harith]

/-- C8 counterexample: the claim fails on the code.  The first emitted
area entity is named `"Área 1"` (line 220, Portuguese, with an accent),
not `"Area 1"` as the claim states.  (The axis order is indeed
reversed: internal `(1, 2)` is emitted as `(2, 1)`.) -/
theorem output_kml_area_name_counterexample :
    (create_output_kml [[(1, 2)]] []).polygons =
      [⟨"Área 1", [(2, 1)]⟩] ∧
    ("Área 1" : String) ≠ "Area 1" := by
  constructor
  · decide
  · decide

/-- C8 amended: for every list of merged polygons, the document writer
emits each ring's coordinates as `(longitude, latitude)` pairs,
reversing the internal `(latitude, longitude)` order, and names the
i-th emitted area entity `"Área {i}"` (not `"Area {i}"`) with a 1-based
index. -/
theorem output_kml_axis_order_and_naming (polys : List (List (ℚ × ℚ)))
    (pms : List Placemark) (i : ℕ) (ring : List (ℚ × ℚ))
    (h : polys[i]? = some ring) :
    ((create_output_kml polys pms).polygons)[i]? =
      some ⟨"Área " ++ toString (i + 1),
        ring.map (fun c => (c.2, c.1))⟩ := by
  unfold create_output_kml
  simp only []
  rw [areaEntities_getElem?, h]
  simp

/-- Witness for C8 amended on a one-ring input. -/
theorem output_kml_axis_order_and_naming_witness :
    ((create_output_kml [[((3 : ℚ), (4 : ℚ))]] []).polygons)[0]? =
      some ⟨"Área " ++ toString (0 + 1), [((4 : ℚ), (3 : ℚ))]⟩ :=
  output_kml_axis_order_and_naming [[(3, 4)]] [] 0 [(3, 4)] rfl

end GerarPoligono
